import Mathlib

/-!
Verification of the `markup-css-once` crate (`src/lib.rs`).

The crate provides a render-scoped deduplication tracker for embedded CSS:
`CssOnce(Cell<HashSet<&'static str>>)` with `new()` and `is_rendered::<T>()`,
plus the `css_once!` helper that wraps style pieces in a `<style>` block on the
first render of a fragment kind and emits the empty string afterwards.

Embedding choices:
* The `HashSet<&'static str>` of `type_name::<T>()` keys is modelled as a
  `Finset String`; a fragment-kind identity is passed as an explicit `String`
  argument in place of the Rust type parameter `T`.
* The interior mutability (`Cell` take/set around the insert) is invisible to a
  sequential caller, so `is_rendered` is modelled as explicit state passing:
  it returns the boolean together with the updated tracker.
* `css_once!` expands to a call of `is_rendered` and a `concat!` of literal
  pieces; the pieces are modelled as a `List String`.
-/

/-- A tracker for rendered css: `pub struct CssOnce(Cell<HashSet<&'static str>>)`. -/
structure CssOnce where
  seen : Finset String

/-- `CssOnce::new`, which is `Self::default()`: the inner set starts empty. -/
def CssOnce.new : CssOnce := ⟨∅⟩

/-- `CssOnce::is_rendered::<T>`: take the inner set, `insert` the identity
(the Rust `type_name::<T>()` string), put the set back, and return the negation
of `HashSet::insert`'s "was newly inserted" result.  The updated tracker is
returned explicitly in place of the `Cell` mutation through `&self`. -/
def CssOnce.is_rendered (c : CssOnce) (k : String) : Bool × CssOnce :=
  let inner := c.seen
  let inserted := decide (k ∉ inner)
  let innerUpd := insert k inner
  (!inserted, ⟨innerUpd⟩)

/-- The `css_once!` helper: query `is_rendered` for the fragment kind `k`; emit
`concat!("<style>", pieces.., "</style>\n")` when the styles were not yet
rendered, and the empty string otherwise. -/
def css_once (c : CssOnce) (k : String) (pieces : List String) : String × CssOnce :=
  let q := c.is_rendered k
  if q.1 then ("", q.2)
  else ("<style>" ++ String.join pieces ++ "</style>\n", q.2)

/-- Run a sequence of `is_rendered` queries, keeping only the final tracker. -/
def runCalls (c : CssOnce) (ks : List String) : CssOnce :=
  ks.foldl (fun s k => (s.is_rendered k).2) c

/-- Two separately constructed tracker instances living side by side.
`is_rendered` is a method on one instance (`&self`), so a query addressed to
instance `a` is modelled as touching only the `a` component. -/
structure TwoTrackers where
  a : CssOnce
  b : CssOnce

/-- Query `is_rendered` on tracker `a` of a two-tracker world. -/
def TwoTrackers.queryA (w : TwoTrackers) (k : String) : Bool × TwoTrackers :=
  let q := w.a.is_rendered k
  (q.1, ⟨q.2, w.b⟩)

/-- Run a sequence of `is_rendered` queries, all addressed to tracker `a`. -/
def TwoTrackers.runA (w : TwoTrackers) (ks : List String) : TwoTrackers :=
  ks.foldl (fun s k => (s.queryA k).2) w

/-! ### Helper lemmas -/

/-- The boolean returned by `is_rendered` is prior membership of the identity. -/
theorem is_rendered_fst (c : CssOnce) (k : String) :
    (c.is_rendered k).1 = decide (k ∈ c.seen) := by
  simp [CssOnce.is_rendered]

/-- The post-state of `is_rendered` is the old set with the identity inserted. -/
theorem is_rendered_snd (c : CssOnce) (k : String) :
    (c.is_rendered k).2.seen = insert k c.seen := rfl

/-- A sequence of queries only ever grows the seen-set. -/
theorem runCalls_subset (c : CssOnce) (ks : List String) :
    c.seen ⊆ (runCalls c ks).seen := by
  induction ks generalizing c with
  | nil => exact fun x hx => hx
  | cons k ks ih =>
      intro x hx
      exact ih ((c.is_rendered k).2) (by simp [is_rendered_snd, hx])

/-- Queries addressed to tracker `a` leave tracker `b` untouched. -/
theorem runA_b (w : TwoTrackers) (ks : List String) :
    (w.runA ks).b = w.b := by
  induction ks generalizing w with
  | nil => rfl
  | cons k ks ih => exact ih ⟨(w.a.is_rendered k).2, w.b⟩

/-- Both branches of `css_once` leave the tracker in the `is_rendered`
post-state. -/
theorem css_once_snd (c : CssOnce) (k : String) (ps : List String) :
    (css_once c k ps).2 = (c.is_rendered k).2 := by
  unfold css_once
  dsimp only
  split <;> rfl

/-! ### Claim theorems -/

/-- C1: on a fresh tracker (`CssOnce::new`), the first call of `is_rendered`
with any fragment-kind identity `k` returns `false`, and as a side effect marks
`k` as seen in the tracker's set. -/
theorem first_call_false_and_marks (k : String) :
    (CssOnce.new.is_rendered k).1 = false ∧
      k ∈ (CssOnce.new.is_rendered k).2.seen := by
  constructor
  · simp [is_rendered_fst, CssOnce.new]
  · simp [is_rendered_snd]

/-- C2: after one call of `is_rendered` with `k` on any tracker, every later
call with the same `k` on that tracker returns `true`, no matter how many
further calls (with arbitrary, possibly different, identities) happen in
between. -/
theorem repeat_call_true (c : CssOnce) (k : String) (ks : List String) :
    ((runCalls (c.is_rendered k).2 ks).is_rendered k).1 = true := by
  rw [is_rendered_fst]
  have hk : k ∈ (c.is_rendered k).2.seen := by simp [is_rendered_snd]
  exact decide_eq_true (runCalls_subset _ ks hk)

/-- C3: `css_once` emits `"<style>" ++ pieces ++ "</style>\n"` exactly when
`is_rendered` answers `false` for the fragment's identity and `""` when it
answers `true`; on a fresh tracker with pieces `"p { background: blue }"` and
`"b { color: yellow }"` the first invocation yields exactly the wrapped
concatenation, and every later invocation for the same fragment kind (after
arbitrary interleaved queries) yields exactly `""`. -/
theorem css_once_emission (c : CssOnce) (k : String) (ps ks : List String) :
    ((css_once c k ps).1 =
      if (c.is_rendered k).1 then ""
      else "<style>" ++ String.join ps ++ "</style>\n") ∧
    (css_once CssOnce.new k
        ["p \x7b background: blue \x7d", "b \x7b color: yellow \x7d"]).1 =
      "<style>p \x7b background: blue \x7db \x7b color: yellow \x7d</style>\n" ∧
    (css_once
        (runCalls
          (css_once CssOnce.new k
            ["p \x7b background: blue \x7d", "b \x7b color: yellow \x7d"]).2 ks)
        k ps).1 = "" := by
  refine ⟨?_, ?_, ?_⟩
  · unfold css_once
    split <;> rename_i h <;> simp_all
  · simp [css_once, is_rendered_fst, CssOnce.new, String.join]
  · rw [css_once_snd]
    have hmem : k ∈ (runCalls (CssOnce.new.is_rendered k).2 ks).seen :=
      runCalls_subset _ ks (by simp [is_rendered_snd])
    unfold css_once
    simp [is_rendered_fst, hmem]

/-- C4: distinct identities are independent: on a fresh tracker, a call of
`is_rendered` with `k1` followed by a call with `k2 ≠ k1` returns `false` for
both, each on its own first call. -/
theorem independent_first_calls (k1 k2 : String) (h : k1 ≠ k2) :
    (CssOnce.new.is_rendered k1).1 = false ∧
      (((CssOnce.new.is_rendered k1).2).is_rendered k2).1 = false := by
  constructor
  · simp [is_rendered_fst, CssOnce.new]
  · rw [is_rendered_fst, is_rendered_snd]
    simp [CssOnce.new, Ne.symm h]

/-- C4 witness: the theorem at the concrete identities "A" and "B". -/
theorem independent_first_calls_witness :
    (CssOnce.new.is_rendered "A").1 = false ∧
      (((CssOnce.new.is_rendered "A").2).is_rendered "B").1 = false :=
  independent_first_calls "A" "B" (by decide)

/-- C5: the seen-set is monotonically non-decreasing: after a single
`is_rendered` call, and after any sequence of calls, the seen-set is a superset
of the seen-set before. -/
theorem seen_monotone (c : CssOnce) (k : String) (ks : List String) :
    c.seen ⊆ (c.is_rendered k).2.seen ∧ c.seen ⊆ (runCalls c ks).seen := by
  constructor
  · rw [is_rendered_snd]
    exact Finset.subset_insert k c.seen
  · exact runCalls_subset c ks

/-- C6: exactly one insertion happens per distinct identity, on first
observation: a call of `is_rendered` with an already-seen `k` leaves the
seen-set unchanged, and with an unseen `k` it adds exactly `k`. -/
theorem insert_once_frame (c : CssOnce) (k : String) :
    (c.is_rendered k).2.seen =
      if k ∈ c.seen then c.seen else insert k c.seen := by
  rw [is_rendered_snd]
  split <;> rename_i h
  · exact Finset.insert_eq_self.mpr h
  · rfl

/-- The output of `css_once` in terms of prior membership of the identity. -/
theorem css_once_fst (c : CssOnce) (k : String) (ps : List String) :
    (css_once c k ps).1 =
      if k ∈ c.seen then ""
      else "<style>" ++ String.join ps ++ "</style>\n" := by
  by_cases hm : k ∈ c.seen <;> simp [css_once, is_rendered_fst, hm]

/-- C7: for two distinct fragment kinds `A ≠ B` each instantiated twice in the
interleaved order A, B, A, B on one fresh tracker, `css_once` emits each kind's
style block exactly at its first occurrence (positions 1 and 2) and the empty
string at the repeats (positions 3 and 4). -/
theorem interleave_emissions (A B : String) (h : A ≠ B)
    (psA psB : List String) :
    (css_once CssOnce.new A psA).1 =
      "<style>" ++ String.join psA ++ "</style>\n" ∧
    (css_once (css_once CssOnce.new A psA).2 B psB).1 =
      "<style>" ++ String.join psB ++ "</style>\n" ∧
    (css_once (css_once (css_once CssOnce.new A psA).2 B psB).2 A psA).1 =
      "" ∧
    (css_once
      (css_once (css_once (css_once CssOnce.new A psA).2 B psB).2 A psA).2
      B psB).1 = "" := by
  refine ⟨?_, ?_, ?_, ?_⟩ <;>
    simp [css_once_fst, css_once_snd, is_rendered_snd, CssOnce.new,
      h, Ne.symm h]

/-- C7 witness: the theorem at the concrete kinds "A", "B" with one style
piece each. -/
theorem interleave_emissions_witness :
    (css_once CssOnce.new "A" ["x"]).1 =
      "<style>" ++ String.join ["x"] ++ "</style>\n" ∧
    (css_once (css_once CssOnce.new "A" ["x"]).2 "B" ["y"]).1 =
      "<style>" ++ String.join ["y"] ++ "</style>\n" ∧
    (css_once (css_once (css_once CssOnce.new "A" ["x"]).2 "B" ["y"]).2
      "A" ["x"]).1 = "" ∧
    (css_once
      (css_once (css_once (css_once CssOnce.new "A" ["x"]).2 "B" ["y"]).2
        "A" ["x"]).2
      "B" ["y"]).1 = "" :=
  interleave_emissions "A" "B" (by decide) ["x"] ["y"]

/-- C8: two separately constructed trackers never share state: any sequence of
`is_rendered` calls on tracker `a` leaves tracker `b` with its fresh empty
state, and `b`'s own first call with any identity still returns `false`. -/
theorem scope_isolation (ks : List String) (k : String) :
    (TwoTrackers.runA ⟨CssOnce.new, CssOnce.new⟩ ks).b.seen =
      CssOnce.new.seen ∧
    (((TwoTrackers.runA ⟨CssOnce.new, CssOnce.new⟩ ks).b).is_rendered k).1 =
      false := by
  have hb := runA_b ⟨CssOnce.new, CssOnce.new⟩ ks
  constructor
  · rw [hb]
  · rw [hb, is_rendered_fst]
    simp [CssOnce.new]

/-- C9: both operations are total and error-free: `new` returns a tracker with
an empty seen-set, and `is_rendered` always produces a boolean result (there is
no error branch — the Lean embedding is a total function, mirroring the Rust
code's lack of any panic or failure path). -/
theorem operations_total (c : CssOnce) (k : String) :
    CssOnce.new.seen = ∅ ∧
      ((c.is_rendered k).1 = true ∨ (c.is_rendered k).1 = false) := by
  refine ⟨rfl, ?_⟩
  cases (c.is_rendered k).1 <;> simp

/-- C10: `is_rendered` is deterministic: from equal seen-set states with equal
identities the operation returns equal results and equal post-states, and the
returned boolean is exactly the prior membership of the identity. -/
theorem is_rendered_deterministic (c1 c2 : CssOnce) (k1 k2 : String)
    (hs : c1.seen = c2.seen) (hk : k1 = k2) :
    c1.is_rendered k1 = c2.is_rendered k2 ∧
      (c1.is_rendered k1).1 = decide (k1 ∈ c1.seen) := by
  subst hk
  have hc : c1 = c2 := by
    cases c1
    cases c2
    simpa using hs
  subst hc
  exact ⟨rfl, is_rendered_fst c1 k1⟩

/-- C10 witness: the theorem at two equal concrete trackers and identities. -/
theorem is_rendered_deterministic_witness :
    CssOnce.new.is_rendered "a" = CssOnce.new.is_rendered "a" ∧
      (CssOnce.new.is_rendered "a").1 = decide ("a" ∈ CssOnce.new.seen) :=
  is_rendered_deterministic CssOnce.new CssOnce.new "a" "a" rfl rfl
